import Mathlib

/-!
# Verification of the Keyword Intelligence & Topic Clustering Engine

Shallow embedding of the keyword-research, cannibalization, topic-cluster
and topic-diversity code of the article-automation repository
(`src/utils/topic-diversity.ts`, `src/services/topic-cluster.ts`, and the
`KeywordResearchService` in the keyword-research module).

Modelling conventions:
* JavaScript strings are modelled as `List Char` (named `Str` below); the
  ASCII fragment of `toLowerCase` is `Char.toLower`.
* JavaScript numbers are modelled as exact rationals `ℚ` (the scoring and
  similarity formulas are small exact decimal computations).
* `async` collaborator calls (OpenAI completions, keyword providers,
  embeddings) are modelled by passing their parsed outcome as an explicit
  `Except Unit _` argument: `.ok v` is a successful parsed response,
  `.error ()` is a thrown/propagated failure.
* Methods that mutate `this.clusters` are modelled as functions from the
  cluster list to the updated cluster list; `Date.now()`-derived timestamps
  and generated ids are passed in as explicit arguments.
-/

/-- JavaScript strings, modelled as lists of characters. -/
abbrev Str := List Char

/-- ASCII fragment of JavaScript `String.prototype.toLowerCase()`. -/
def jsLower (s : Str) : Str := s.map Char.toLower

/-- ASCII fragment of the JavaScript regex class `\s` (whitespace). -/
def isWs (c : Char) : Bool := c = ' ' || c = '\t' || c = '\n' || c = '\r'

/-- Accumulator recursion for `jsSplitWs`.  `acc` holds the current
fragment reversed; `skipping` is true while inside a separator run (a
second consecutive whitespace character then extends the same separator
instead of opening a new fragment boundary). -/
def jsSplitWsAux : Str → Str → Bool → List Str
  | [], acc, _ => [acc.reverse]
  | c :: cs, acc, skipping =>
    if isWs c then
      if skipping then jsSplitWsAux cs acc skipping
      else acc.reverse :: jsSplitWsAux cs [] true
    else jsSplitWsAux cs (c :: acc) false

/-- JavaScript `s.split(/\s+/)`: splits on maximal whitespace runs.  A
leading (resp. trailing) whitespace run produces a leading (resp. trailing)
empty fragment, exactly as in JavaScript; `"" → [""]`. -/
def jsSplitWs (s : Str) : List Str := jsSplitWsAux s [] false

/-- `[...new Set(l)]` in JavaScript: deduplicate keeping the first
occurrence of each element, in encounter order. -/
def jsDedup {α : Type} [DecidableEq α] : List α → List α :=
  go []
where
  go : List α → List α → List α
    | _, [] => []
    | seen, x :: xs => if x ∈ seen then go seen xs else x :: go (x :: seen) xs

/-- `src/utils/topic-diversity.ts` stop-word set (`STOP_WORDS`). -/
def stopWordsDiversity : List Str :=
  (["a", "an", "the", "is", "are", "was", "were", "be", "been", "being",
    "have", "has", "had", "do", "does", "did", "will", "would", "could",
    "should", "may", "might", "must", "shall", "can", "need", "dare",
    "ought", "used", "to", "of", "in", "for", "on", "with", "at", "by",
    "from", "as", "into", "through", "during", "before", "after", "above",
    "below", "between", "under", "again", "further", "then", "once", "here",
    "there", "when", "where", "why", "how", "all", "each", "few", "more",
    "most", "other", "some", "such", "no", "nor", "not", "only", "own",
    "same", "so", "than", "too", "very", "s", "t", "just", "don", "now",
    "and", "but", "or", "because", "until", "while", "this", "that", "these",
    "those", "it", "its", "what", "which", "who", "whom", "he", "she", "they",
    "we", "you", "i", "me", "my", "your", "his", "her", "their", "our",
    "says", "said", "new", "first", "last", "year", "years", "day", "days",
    "time", "week", "month", "get", "make", "go", "know", "take", "see",
    "come", "think", "look", "want", "give", "use", "find", "tell", "ask",
    "work", "seem", "feel", "try", "leave", "call", "good", "great", "big"]
   : List String).map String.data

/-- Character recursion for `stripTags`.  `inTag` is true while consuming a
matched `<...>` span (entered only when a closing `'>'` is known to exist
ahead, since `<[^>]*>` needs one; the span ends at the first `'>'`).  A
`'<'` with no later `'>'` starts no match — and then no later match is
possible at all, since no `'>'` remains — so it is kept literally. -/
def stripTagsAux : Str → Bool → Str
  | [], _ => []
  | c :: cs, true => if c = '>' then stripTagsAux cs false else stripTagsAux cs true
  | c :: cs, false =>
    if c = '<' && cs.contains '>' then stripTagsAux cs true
    else c :: stripTagsAux cs false

/-- JavaScript `text.replace(/<[^>]*>/g, '')`: remove HTML-tag-like spans. -/
def stripTags (s : Str) : Str := stripTagsAux s false

/-- Character class `[a-z0-9\s-]` (the characters *kept* by the diversity
tokenizer's `replace(/[^a-z0-9\s-]/g, ' ')`, which runs after lowercasing). -/
def keepDiversityChar (c : Char) : Bool :=
  ('a' ≤ c && c ≤ 'z') || ('0' ≤ c && c ≤ '9') || isWs c || c = '-'

/-- `extractKeywords` from `src/utils/topic-diversity.ts`: strip tags,
lowercase, replace `[^a-z0-9\s-]` by a space, split on whitespace, keep
words of length > 2 that are not stop words, deduplicate (`new Set`). -/
def extractKeywordsDiv (text : Str) : List Str :=
  let cleanText := stripTags text
  let words :=
    (jsSplitWs ((jsLower cleanText).map (fun c => if keepDiversityChar c then c else ' '))).filter
      (fun w => w.length > 2 && !(stopWordsDiversity.contains w))
  jsDedup words

/-- `jaccardSimilarity` from `src/utils/topic-diversity.ts`:
`|set1 ∩ set2| / (|set1| + |set2| - |set1 ∩ set2|)`, and `0` when the union
is empty. -/
def jaccardSimilarity (words1 words2 : List Str) : ℚ :=
  let set1 := jsDedup words1
  let set2 := jsDedup words2
  let intersection := (set1.filter (fun w => set2.contains w)).length
  let union := set1.length + set2.length - intersection
  if union = 0 then 0 else (intersection : ℚ) / (union : ℚ)

/-- `RecentArticle` from `src/utils/topic-diversity.ts`. -/
structure RecentArticle where
  title : Str
  keywords : List Str
  createdAt : Str
deriving DecidableEq

/-- `SimilarityResult` from `src/utils/topic-diversity.ts`. -/
structure SimilarityResult where
  isTooSimilar : Bool
  highestScore : ℚ
  mostSimilarTitle : Str
deriving DecidableEq

/-- The token bag `checkTopicSimilarity` builds for one side of the
comparison: extracted title keywords plus raw lowercased query/keyword
strings. -/
def tokenBag (title : Str) (extra : List Str) : List Str :=
  extractKeywordsDiv title ++ extra.map jsLower

/-- The loop body of `checkTopicSimilarity`: keep the strictly higher
score together with its article title. -/
def bestStep (candidateWords : List Str) (acc : ℚ × Str) (article : RecentArticle) :
    ℚ × Str :=
  let score := jaccardSimilarity candidateWords (tokenBag article.title article.keywords)
  if score > acc.1 then (score, article.title) else acc

/-- `checkTopicSimilarity` from `src/utils/topic-diversity.ts`. -/
def checkTopicSimilarity (candidateTitle : Str) (candidateQueries : List Str)
    (recentHistory : List RecentArticle) (threshold : ℚ) : SimilarityResult :=
  if recentHistory.isEmpty then ⟨false, 0, []⟩
  else
    let best := recentHistory.foldl (bestStep (tokenBag candidateTitle candidateQueries)) (0, [])
    ⟨decide (best.1 ≥ threshold), best.1, best.2⟩

/-! ## Topic Cluster Store (`src/services/topic-cluster.ts`) -/

/-- `'pillar' | 'cluster'` content type. -/
inductive ContentType where
  | pillar
  | cluster
deriving DecidableEq

/-- `ClusterArticle` from `src/types`. -/
structure ClusterArticle where
  title : Str
  slug : Str
  url : Str
  publishedAt : Str
  keywords : List Str
  contentType : ContentType
deriving DecidableEq

/-- `TopicCluster` from `src/types`. -/
structure TopicCluster where
  id : Str
  pillarTopic : Str
  keywords : List Str
  articles : List ClusterArticle
  createdAt : Str
  updatedAt : Str
deriving DecidableEq

/-- `ClusterClassification` from `src/services/topic-cluster.ts`. -/
structure ClusterClassification where
  clusterId : Str
  contentType : ContentType
  isNew : Bool
deriving DecidableEq

/-- Stop-word set of `TopicClusterService.extractKeywords`. -/
def stopWordsCluster : List Str :=
  (["the", "a", "an", "and", "or", "but", "in", "on", "at", "to", "for",
    "of", "with", "by", "is", "are", "was", "were", "be", "been", "being",
    "have", "has", "had", "do", "does", "did", "will", "would", "could",
    "should", "may", "might", "can", "this", "that", "these", "those",
    "it", "its", "how", "what", "when", "where", "why", "which", "who",
    "not", "no", "nor", "from", "up", "about", "into", "over", "after"]
   : List String).map String.data

/-- Character class `[\w\s]` restricted to lowercased input (the cluster
tokenizer's `replace(/[^\w\s]/g, '')` runs after `toLowerCase`, so the
`A-Z` part of `\w` cannot occur). -/
def keepClusterChar (c : Char) : Bool :=
  ('a' ≤ c && c ≤ 'z') || ('0' ≤ c && c ≤ '9') || c = '_' || isWs c

/-- `TopicClusterService.extractKeywords`: lowercase, delete `[^\w\s]`,
split on whitespace, keep words of length > 2 that are not stop words
(no deduplication in this variant). -/
def extractKeywordsTC (text : Str) : List Str :=
  (jsSplitWs ((jsLower text).filter keepClusterChar)).filter
    (fun w => w.length > 2 && !(stopWordsCluster.contains w))

/-- `TopicClusterService.calculateOverlap`: Jaccard overlap
`|set1 ∩ set2| / |set1 ∪ set2|`, and `0` when the union is empty. -/
def calculateOverlap (words1 words2 : List Str) : ℚ :=
  let set1 := jsDedup words1
  let set2 := jsDedup words2
  let intersection := (set1.filter (fun w => set2.contains w)).length
  let unionSize := (jsDedup (set1 ++ set2)).length
  if unionSize > 0 then (intersection : ℚ) / (unionSize : ℚ) else 0

/-- The word list `classifyTopic` builds from its inputs: tokens of the
topic followed by the tokens of every related query. -/
def allWordsOf (topic : Str) (relatedQueries : List Str) : List Str :=
  extractKeywordsTC topic ++ relatedQueries.flatMap extractKeywordsTC

/-- The `classifyTopic` scan for a best-matching cluster, with the running
index of the scanned cluster and the current best `(index, cluster, score)`.
A candidate replaces the current best exactly when its score is `> 0.3`
and strictly above the current best's score
(`score > 0.3 && (!bestMatch || score > bestMatch.score)`). -/
def findBestMatchFrom (allWords : List Str) :
    List TopicCluster → Nat → Option (Nat × TopicCluster × ℚ) →
    Option (Nat × TopicCluster × ℚ)
  | [], _, best => best
  | c :: rest, i, best =>
    let score := calculateOverlap allWords c.keywords
    let ok := decide (score > 3/10) && best.elim true (fun b => decide (score > b.2.2))
    findBestMatchFrom allWords rest (i + 1) (if ok then some (i, c, score) else best)

/-- The full best-match scan over the stored clusters, in storage order. -/
def findBestMatch (allWords : List Str) (clusters : List TopicCluster) :
    Option (Nat × TopicCluster × ℚ) :=
  findBestMatchFrom allWords clusters 0 none

/-- The keyword merge `classifyTopic` performs on a matched cluster: append
(at most 10 of) the input words that are not already cluster keywords, and
touch `updatedAt` only when there is at least one such word. -/
def mergeKeywordsIntoCluster (allWords : List Str) (now : Str)
    (cluster : TopicCluster) : TopicCluster :=
  let newKeywords := allWords.filter (fun w => !(cluster.keywords.contains w))
  if newKeywords.length > 0 then
    { cluster with keywords := cluster.keywords ++ newKeywords.take 10, updatedAt := now }
  else cluster

/-- `TopicClusterService.classifyTopic`, as a function of the stored
cluster list.  `now` models `new Date().toISOString()` and `newId` models
`generateId()`.  Returns the classification together with the updated
cluster list (the in-place mutation of the matched cluster becomes
`List.set` at its index; a created cluster is pushed at the end). -/
def classifyTopic (topic : Str) (relatedQueries : List Str) (now newId : Str)
    (clusters : List TopicCluster) : ClusterClassification × List TopicCluster :=
  let allWords := allWordsOf topic relatedQueries
  match findBestMatch allWords clusters with
  | some (i, c, _) =>
    let hasPillar := c.articles.any (fun a => a.contentType = ContentType.pillar)
    let contentType := if hasPillar then ContentType.cluster else ContentType.pillar
    (⟨c.id, contentType, false⟩, clusters.set i (mergeKeywordsIntoCluster allWords now c))
  | none =>
    let newCluster : TopicCluster :=
      ⟨newId, topic, (jsDedup allWords).take 30, [], now, now⟩
    (⟨newId, ContentType.pillar, true⟩, clusters ++ [newCluster])

/-- `TopicClusterService.addArticleToCluster`, as a function of the stored
cluster list.  A missing cluster id and a duplicate article slug are both
silent no-ops; otherwise the article is appended, `updatedAt` touched, and
the article's keywords (lowercased, minus those already present) appended
to the cluster's keywords. -/
def addArticleToCluster (clusterId : Str) (article : ClusterArticle) (now : Str) :
    List TopicCluster → List TopicCluster
  | [] => []
  | c :: rest =>
    if c.id = clusterId then
      (if c.articles.any (fun a => a.slug = article.slug) then c
       else
         { c with
           articles := c.articles ++ [article]
           updatedAt := now
           keywords := c.keywords ++
             (article.keywords.filter
               (fun k => !(c.keywords.contains (jsLower k)))).map jsLower }) :: rest
    else c :: addArticleToCluster clusterId article now rest

/-! ## Keyword Research Service (keyword-research module) -/

/-- `'high' | 'medium' | 'low' | 'very_low'` estimated volume. -/
inductive Volume where
  | high
  | medium
  | low
  | very_low
deriving DecidableEq

/-- `'rising' | 'stable' | 'declining'` trend. -/
inductive Trend where
  | rising
  | stable
  | declining
deriving DecidableEq

/-- `SearchIntent` from `src/types`. -/
inductive SearchIntent where
  | informational
  | transactional
  | navigational
  | commercial
deriving DecidableEq

/-- `KeywordSuggestion` from `src/types`. -/
structure KeywordSuggestion where
  keyword : Str
  source : Str
deriving DecidableEq

/-- `KeywordMetrics` from `src/types`.  The `estimatedVolume`/`trend`
fields are validated enums by the time `scoreAndPrioritize` runs, so they
are modelled as inductives. -/
structure KeywordMetrics where
  keyword : Str
  estimatedVolume : Volume
  estimatedDifficulty : ℚ
  intent : SearchIntent
  trend : Trend
  source : Str
deriving DecidableEq

/-- One entry of `CannibalizationResult.overlappingArticles`. -/
structure OverlappingArticle where
  title : Str
  slug : Str
  similarity : ℚ
  matchedKeywords : List Str
deriving DecidableEq

/-- `CannibalizationResult` from `src/types`. -/
structure CannibalizationResult where
  keyword : Str
  overlappingArticles : List OverlappingArticle
  isCannibalized : Bool
  suggestedLongTails : List Str
deriving DecidableEq

/-- `KeywordPlan` from `src/types`. -/
structure KeywordPlan where
  primary : KeywordMetrics
  secondary : List KeywordMetrics
  longTails : List Str
  intentProfile : SearchIntent
  cannibalizationReport : List CannibalizationResult
  score : ℚ
deriving DecidableEq

/-- An article of the existing-content corpus used by the cannibalization
check (`loadExistingArticles`). -/
structure ExistingArticle where
  title : Str
  slug : Str
  keywords : List Str
deriving DecidableEq

/-- The trivial all-clear result synthesized locally for a candidate that
is not (successfully) checked. -/
def trivialCannResult (c : KeywordMetrics) : CannibalizationResult :=
  ⟨c.keyword, [], false, []⟩

/-- `KeywordResearchService.checkCannibalization`.  The single batched
completion call and its JSON parse are modelled by the `response` argument:
`.ok parsed` is the parsed collaborator answer (whose fields are copied
verbatim onto the results), `.error ()` is a thrown completion/parse error
(caught: every checked candidate then defaults to non-cannibalized).
Candidates beyond the first 10 are appended as non-cannibalized without
being checked; an empty corpus short-circuits before the call. -/
def checkCannibalization (candidates : List KeywordMetrics)
    (existingArticles : List ExistingArticle)
    (response : Except Unit (List CannibalizationResult)) :
    List CannibalizationResult :=
  if existingArticles.isEmpty then candidates.map trivialCannResult
  else
    let topCandidates := candidates.take 10
    let checkedResults :=
      match response with
      | .ok parsed =>
        parsed.map (fun r =>
          ⟨r.keyword, r.overlappingArticles, r.isCannibalized, r.suggestedLongTails⟩)
      | .error _ => topCandidates.map trivialCannResult
    checkedResults ++ (candidates.drop 10).map trivialCannResult

/-- The autocomplete-derived long-tail phrases `expandLongTails` collects:
for each provider, a failed or unavailable fetch (`.error ()`, the
per-provider `try`/`catch` or the `isAvailable` skip) contributes nothing,
a successful one contributes its suggestions' keywords having
`split(/\s+/).length >= 4`. -/
def autocompleteLongTailsOf
    (providerFetches : List (Except Unit (List KeywordSuggestion))) : List Str :=
  providerFetches.flatMap (fun r =>
    match r with
    | .ok suggestions =>
      (suggestions.map (fun s => s.keyword)).filter (fun k => (jsSplitWs k).length ≥ 4)
    | .error _ => [])

/-- `KeywordResearchService.expandLongTails`.  Provider fetches are passed
as `providerFetches` (one outcome per provider call), the GPT expansion
call with its JSON parse as `gptResponse`.  The GPT call is *not* inside a
`try`/`catch` in this method, so its failure propagates as an error; on
success the result is `[...new Set([...autocompleteLongTails, ...parsed.longTails])]`. -/
def expandLongTails (providerFetches : List (Except Unit (List KeywordSuggestion)))
    (gptResponse : Except Unit (List Str)) : Except Unit (List Str) :=
  let autocompleteLongTails := autocompleteLongTailsOf providerFetches
  match gptResponse with
  | .error e => .error e
  | .ok longTails => .ok (jsDedup (autocompleteLongTails ++ longTails))

/-- `volumeScore` table of `scoreAndPrioritize` (the `|| 40` fallback in
the source is unreachable for the validated enum). -/
def volumeScore : Volume → ℚ
  | .high => 100
  | .medium => 70
  | .low => 40
  | .very_low => 15

/-- `trendBonus` table of `scoreAndPrioritize` (the `|| 60` fallback in
the source is unreachable for the validated enum). -/
def trendBonus : Trend → ℚ
  | .rising => 100
  | .stable => 60
  | .declining => 20

/-- Lookup in the `cannibalizationMap` built by `scoreAndPrioritize`:
a JavaScript `Map` keyed by `c.keyword.toLowerCase()` in which a later
entry with the same key overwrites an earlier one, queried at
`candidate.keyword.toLowerCase()`. -/
def cannLookup (cannibalization : List CannibalizationResult) (keyword : Str) :
    Option CannibalizationResult :=
  cannibalization.reverse.find? (fun c => decide (jsLower c.keyword = jsLower keyword))

/-- `cannResult?.isCannibalized || false` for a candidate keyword. -/
def isCannKeyword (cannibalization : List CannibalizationResult) (keyword : Str) : Bool :=
  (cannLookup cannibalization keyword).elim false (fun c => c.isCannibalized)

/-- The score formula of `scoreAndPrioritize` (weights 0.30, 0.25, 0.20,
0.15, 0.10 written as exact rationals). -/
def keywordScore (cannibalization : List CannibalizationResult)
    (candidate : KeywordMetrics) : ℚ :=
  volumeScore candidate.estimatedVolume * (3/10)
    + (100 - candidate.estimatedDifficulty) * (25/100)
    + 70 * (20/100)
    + trendBonus candidate.trend * (15/100)
    + (if isCannKeyword cannibalization candidate.keyword then 0 else 100) * (10/100)

/-- One element of the `scored` array of `scoreAndPrioritize`.  `idx` is
the candidate's position in the input array; it models the JavaScript
object identity of the wrapper object (each wrapper is a fresh object, so
`s !== primaryEntry` is exactly `s.idx ≠ primaryEntry.idx`). -/
structure ScoredEntry where
  idx : Nat
  candidate : KeywordMetrics
  score : ℚ
  isCannibalized : Bool
deriving DecidableEq

/-- The `scored` array before sorting: one wrapper per candidate, in input
order, holding the candidate, its score and its cannibalization flag. -/
def scoredList (candidates : List KeywordMetrics)
    (cannibalization : List CannibalizationResult) : List ScoredEntry :=
  candidates.enum.map (fun p =>
    ⟨p.1, p.2, keywordScore cannibalization p.2, isCannKeyword cannibalization p.2.keyword⟩)

/-- `scored.sort((a, b) => b.score - a.score)`: a stable sort placing `a`
before `b` when `b.score ≤ a.score` (descending by score, ties kept in
input order). -/
def sortedScored (candidates : List KeywordMetrics)
    (cannibalization : List CannibalizationResult) : List ScoredEntry :=
  (scoredList candidates cannibalization).mergeSort (fun a b => decide (b.score ≤ a.score))

/-- The insertion-ordered intent tally of `scoreAndPrioritize`
(a JavaScript `Map<SearchIntent, number>` built by incrementing). -/
def bumpIntent : List (SearchIntent × Nat) → SearchIntent → List (SearchIntent × Nat)
  | [], i => [(i, 1)]
  | (j, n) :: rest, i =>
    if j = i then (j, n + 1) :: rest else (j, n) :: bumpIntent rest i

/-- The dominant-intent scan of `scoreAndPrioritize`: starting from
`informational` with count 0, replace on a strictly greater count while
walking the tally in insertion order. -/
def dominantIntent (ks : List KeywordMetrics) : SearchIntent :=
  let intentCounts := ks.foldl (fun acc k => bumpIntent acc k.intent) []
  (intentCounts.foldl
    (fun best p => if p.2 > best.2 then p else best)
    (SearchIntent.informational, 0)).1

/-- `KeywordResearchService.scoreAndPrioritize`.  For an empty candidate
list the source reads `scored[0]` of an empty array and then dereferences
`primaryEntry.candidate`, throwing a `TypeError`; this fault is modelled as
`none`.  Otherwise the plan is built as in the source. -/
def scoreAndPrioritize (candidates : List KeywordMetrics)
    (cannibalization : List CannibalizationResult) : Option KeywordPlan :=
  let scored := sortedScored candidates cannibalization
  let nonCannibalized := scored.filter (fun s => !s.isCannibalized)
  let primaryEntry? :=
    if nonCannibalized.length > 0 then nonCannibalized.head? else scored.head?
  match primaryEntry? with
  | none => none
  | some primaryEntry =>
    let secondary :=
      ((nonCannibalized.filter (fun s => s.idx ≠ primaryEntry.idx)).take 5).map
        (fun s => s.candidate)
    some
      { primary := primaryEntry.candidate
        secondary := secondary
        longTails := []
        intentProfile := dominantIntent (primaryEntry.candidate :: secondary)
        cannibalizationReport := cannibalization
        score := primaryEntry.score }

/-! ## Embedding-based classification (`classifyTopicWithEmbeddings`) -/

/-- The text embedded for the candidate topic:
`[topic, ...relatedQueries.slice(0, 5)].join(' ')`. -/
def topicTextOf (topic : Str) (relatedQueries : List Str) : Str :=
  List.intercalate [' '] (topic :: relatedQueries.take 5)

/-- The text embedded for an existing cluster:
`[cluster.pillarTopic, ...cluster.keywords.slice(0, 10)].join(' ')`. -/
def clusterTextOf (cluster : TopicCluster) : Str :=
  List.intercalate [' '] (cluster.pillarTopic :: cluster.keywords.take 10)

section
open Classical

/-- `TopicClusterService.cosineSimilarity`.  Embedding vectors are modelled
over `ℝ` (the source takes `Math.sqrt` of the norms); the loop runs over
the indices of `a`, and the two vectors are assumed equally long (both come
from the same embedding model), so `b.getD i 0` models `b[i]`. -/
noncomputable def cosineSimilarity (a b : List ℝ) : ℝ :=
  let dotProduct := (List.range a.length).foldl (fun acc i => acc + a.getD i 0 * b.getD i 0) 0
  let normA := (List.range a.length).foldl (fun acc i => acc + a.getD i 0 * a.getD i 0) 0
  let normB := (List.range a.length).foldl (fun acc i => acc + b.getD i 0 * b.getD i 0) 0
  let denominator := Real.sqrt normA * Real.sqrt normB
  if denominator = 0 then 0 else dotProduct / denominator

/-- The best-match loop of the embedding path, mirroring the Jaccard scan:
per cluster, one `getEmbedding` call (an `embed` oracle outcome; an error
aborts the whole `try` block before any state mutation), then a candidate
replaces the current best exactly when its cosine score is `> 0.75` and
strictly above the current best's
(`score > EMBEDDING_SIMILARITY_THRESHOLD && (!bestMatch || score > bestMatch.score)`). -/
noncomputable def embeddingBestMatchFrom (embed : Str → Except Unit (List ℝ))
    (topicEmbedding : List ℝ) :
    List TopicCluster → Nat → Option (Nat × TopicCluster × ℝ) →
    Except Unit (Option (Nat × TopicCluster × ℝ))
  | [], _, best => .ok best
  | c :: rest, i, best =>
    match embed (clusterTextOf c) with
    | .error e => .error e
    | .ok clusterEmbedding =>
      let score := cosineSimilarity topicEmbedding clusterEmbedding
      let ok := score > 3/4 ∧ best.elim True (fun b => score > b.2.2)
      embeddingBestMatchFrom embed topicEmbedding rest (i + 1)
        (if ok then some (i, c, score) else best)

/-- The body of the `try` block of `classifyTopicWithEmbeddings`: embed the
topic text, scan all clusters (each with one embedding call), and on a best
match perform the same keyword merge as the Jaccard path.  `.error ()` is a
thrown embedding call (all embedding calls precede any state mutation in
the source, so an exception leaves the store untouched); `.ok none` means
the scan finished without an accepted match. -/
noncomputable def embeddingPath (embed : Str → Except Unit (List ℝ)) (topic : Str)
    (relatedQueries : List Str) (now : Str) (clusters : List TopicCluster) :
    Except Unit (Option (ClusterClassification × List TopicCluster)) :=
  match embed (topicTextOf topic relatedQueries) with
  | .error e => .error e
  | .ok topicEmbedding =>
    match embeddingBestMatchFrom embed topicEmbedding clusters 0 none with
    | .error e => .error e
    | .ok none => .ok none
    | .ok (some (i, c, _)) =>
      let hasPillar := c.articles.any (fun a => a.contentType = ContentType.pillar)
      let contentType := if hasPillar then ContentType.cluster else ContentType.pillar
      let allWords := allWordsOf topic relatedQueries
      .ok (some (⟨c.id, contentType, false⟩,
        clusters.set i (mergeKeywordsIntoCluster allWords now c)))

/-- `TopicClusterService.classifyTopicWithEmbeddings`.  `hasClient` models
`this.openaiClient !== null`.  With no client or no stored clusters the
method immediately delegates to `classifyTopic`; a thrown embedding call is
caught and falls back to `classifyTopic`; a completed scan with no accepted
match also calls `classifyTopic`. -/
noncomputable def classifyTopicWithEmbeddings (hasClient : Bool)
    (embed : Str → Except Unit (List ℝ)) (topic : Str) (relatedQueries : List Str)
    (now newId : Str) (clusters : List TopicCluster) :
    ClusterClassification × List TopicCluster :=
  if !hasClient || clusters.isEmpty then
    classifyTopic topic relatedQueries now newId clusters
  else
    match embeddingPath embed topic relatedQueries now clusters with
    | .error _ => classifyTopic topic relatedQueries now newId clusters
    | .ok none => classifyTopic topic relatedQueries now newId clusters
    | .ok (some result) => result

end

/-! ## Claim C9: idempotent slug insertion -/

/-- When the head cluster matches the id and already holds the article's
slug, `addArticleToCluster` is a silent no-op. -/
theorem addArticleToCluster_slug_noop (clusterId : Str) (a : ClusterArticle) (now : Str)
    (c : TopicCluster) (rest : List TopicCluster) (hid : c.id = clusterId)
    (hdup : (c.articles.any fun x => decide (x.slug = a.slug)) = true) :
    addArticleToCluster clusterId a now (c :: rest) = c :: rest := by
  simp only [addArticleToCluster]
  rw [if_pos hid, if_pos hdup]

/-- C9: `addArticleToCluster` is idempotent by slug: a second call with an
article bearing the same slug is a silent no-op — the whole cluster list
(in particular the matched cluster's `articles` length) after the second
call equals the state after the first call, and no error is raised (the
function is total). -/
theorem addArticleToCluster_idempotent_by_slug
    (clusterId : Str) (a1 a2 : ClusterArticle) (n1 n2 : Str)
    (clusters : List TopicCluster) (hslug : a1.slug = a2.slug) :
    addArticleToCluster clusterId a2 n2 (addArticleToCluster clusterId a1 n1 clusters) =
      addArticleToCluster clusterId a1 n1 clusters := by
  induction clusters with
  | nil => simp [addArticleToCluster]
  | cons c rest ih =>
    by_cases hid : c.id = clusterId
    · by_cases hdup : (c.articles.any fun x => decide (x.slug = a1.slug)) = true
      · -- a1's slug is already present: both calls are no-ops.
        have hdup2 : (c.articles.any fun x => decide (x.slug = a2.slug)) = true := by
          simp only [List.any_eq_true, decide_eq_true_eq] at hdup ⊢
          obtain ⟨x, hx, he⟩ := hdup
          exact ⟨x, hx, he.trans hslug⟩
        rw [addArticleToCluster_slug_noop clusterId a1 n1 c rest hid hdup]
        exact addArticleToCluster_slug_noop clusterId a2 n2 c rest hid hdup2
      · -- the first call appends a1; the second then finds a1's slug.
        have hfirst : addArticleToCluster clusterId a1 n1 (c :: rest) =
            ({ c with
                articles := c.articles ++ [a1]
                updatedAt := n1
                keywords := c.keywords ++
                  (a1.keywords.filter
                    (fun k => !(c.keywords.contains (jsLower k)))).map jsLower } :
              TopicCluster) :: rest := by
          simp only [addArticleToCluster]
          rw [if_pos hid, if_neg (by simp only [hdup, Bool.false_eq_true]; exact fun h => h)]
        rw [hfirst]
        refine addArticleToCluster_slug_noop clusterId a2 n2 _ rest hid ?_
        simp only [List.any_append, List.any_cons, List.any_nil, Bool.or_false,
          Bool.or_eq_true, List.any_eq_true, decide_eq_true_eq]
        exact Or.inr hslug
    · simp only [addArticleToCluster]
      rw [if_neg hid]
      simp only [addArticleToCluster]
      rw [if_neg hid, ih]

/-- Witness for C9 at a concrete cluster store and article. -/
theorem addArticleToCluster_idempotent_by_slug_witness :
    addArticleToCluster ['c'] ⟨['t'], ['s'], ['u'], ['p'], [['k']], ContentType.cluster⟩ ['m']
        (addArticleToCluster ['c'] ⟨['t'], ['s'], ['u'], ['p'], [['k']], ContentType.cluster⟩ ['n']
          [⟨['c'], ['p'], [], [], ['d'], ['d']⟩]) =
      addArticleToCluster ['c'] ⟨['t'], ['s'], ['u'], ['p'], [['k']], ContentType.cluster⟩ ['n']
        [⟨['c'], ['p'], [], [], ['d'], ['d']⟩] :=
  addArticleToCluster_idempotent_by_slug ['c']
    ⟨['t'], ['s'], ['u'], ['p'], [['k']], ContentType.cluster⟩
    ⟨['t'], ['s'], ['u'], ['p'], [['k']], ContentType.cluster⟩ ['n'] ['m']
    [⟨['c'], ['p'], [], [], ['d'], ['d']⟩] rfl

/-! ## Claim C10: `scoreAndPrioritize` requires a non-empty candidate list -/

/-- C10: for `candidates = []` the non-cannibalized filter is empty and the
fallback reads `scored[0]` of the empty scored array, so the source throws
on an undefined access (modelled as `none`); for every non-empty candidate
list this fault branch is unreachable and a well-typed `KeywordPlan` is
returned. -/
theorem scoreAndPrioritize_nonempty_precondition :
    (∀ cannibalization, scoreAndPrioritize [] cannibalization = none) ∧
    (∀ candidates cannibalization, candidates ≠ [] →
      (scoreAndPrioritize candidates cannibalization).isSome = true) := by
  constructor
  · intro cannibalization
    simp [scoreAndPrioritize, sortedScored, scoredList]
  · intro candidates cannibalization hne
    have hlen : (sortedScored candidates cannibalization).length = candidates.length := by
      unfold sortedScored
      rw [(List.mergeSort_perm (scoredList candidates cannibalization) _).length_eq]
      simp [scoredList]
    have hscored : sortedScored candidates cannibalization ≠ [] := by
      intro h
      rw [h] at hlen
      exact hne (List.eq_nil_of_length_eq_zero hlen.symm)
    simp only [scoreAndPrioritize]
    split
    · next heq =>
      exfalso
      split at heq
      · next hpos =>
        rcases List.exists_cons_of_ne_nil (List.ne_nil_of_length_pos hpos) with ⟨e, t, hc⟩
        rw [hc] at heq
        exact Option.noConfusion heq
      · rcases List.exists_cons_of_ne_nil hscored with ⟨e, t, hc⟩
        rw [hc] at heq
        exact Option.noConfusion heq
    · rfl

/-- Witness for C10 at a one-candidate list. -/
theorem scoreAndPrioritize_nonempty_precondition_witness :
    (scoreAndPrioritize
      [⟨['k'], Volume.low, 50, SearchIntent.informational, Trend.stable, []⟩] []).isSome = true :=
  scoreAndPrioritize_nonempty_precondition.2
    [⟨['k'], Volume.low, 50, SearchIntent.informational, Trend.stable, []⟩] []
    (by simp)

/-! ## Claim C5: long-tail expansion -/

theorem jsDedup_go_spec {α : Type} [DecidableEq α] :
    ∀ (xs seen : List α), (jsDedup.go seen xs).Nodup ∧ ∀ x ∈ jsDedup.go seen xs, x ∉ seen := by
  intro xs
  induction xs with
  | nil => intro seen; simp [jsDedup.go]
  | cons x xs ih =>
    intro seen
    simp only [jsDedup.go]
    by_cases hx : x ∈ seen
    · rw [if_pos hx]
      exact ih seen
    · rw [if_neg hx]
      obtain ⟨hnd, havoid⟩ := ih (x :: seen)
      refine ⟨List.nodup_cons.mpr
        ⟨fun hmem => (havoid x hmem) (List.mem_cons_self x seen), hnd⟩, ?_⟩
      intro y hy
      rcases List.mem_cons.mp hy with rfl | hy'
      · exact hx
      · exact fun hseen => (havoid y hy') (List.mem_cons_of_mem x hseen)

/-- The JavaScript `[...new Set(l)]` model produces a duplicate-free list. -/
theorem jsDedup_nodup {α : Type} [DecidableEq α] (l : List α) : (jsDedup l).Nodup :=
  (jsDedup_go_spec l []).1

/-- With every provider fetch failing, no autocomplete long-tails are
collected. -/
theorem autocompleteLongTailsOf_all_error
    (fetches : List (Except Unit (List KeywordSuggestion)))
    (hall : ∀ f ∈ fetches, f = Except.error ()) :
    autocompleteLongTailsOf fetches = [] := by
  induction fetches with
  | nil => rfl
  | cons f fs ih =>
    have hf := hall f (List.mem_cons_self f fs)
    subst hf
    have ihfs := ih (fun g hg => hall g (List.mem_cons_of_mem _ hg))
    simp only [autocompleteLongTailsOf, List.flatMap_cons, List.nil_append] at ihfs ⊢
    exact ihfs

/-- C5 counterexample: with every provider fetch failing *and* the GPT
expansion call failing, `expandLongTails` propagates the error (the GPT
call is not wrapped in a `try`/`catch` inside this method), rather than
returning the empty list; the empty-list recovery lives in the caller
(`buildKeywordPlan`). -/
theorem expandLongTails_both_sources_fail_counterexample :
    expandLongTails [Except.error ()] (Except.error ()) = Except.error () := rfl

/-- C5 (amended): when the collaborator call succeeds, `expandLongTails`
returns the deduplicated combination of the ≥4-word provider-derived
phrases with the collaborator-suggested phrases (provider failures
contribute nothing, so with every provider failing and no collaborator
phrases the result is the empty list); when the collaborator call itself
fails the error propagates to the caller (which substitutes `[]`). -/
theorem expandLongTails_spec (fetches : List (Except Unit (List KeywordSuggestion)))
    (longTails : List Str) :
    expandLongTails fetches (Except.ok longTails) =
        Except.ok (jsDedup (autocompleteLongTailsOf fetches ++ longTails)) ∧
    (∀ k ∈ autocompleteLongTailsOf fetches, (jsSplitWs k).length ≥ 4) ∧
    (jsDedup (autocompleteLongTailsOf fetches ++ longTails)).Nodup ∧
    ((∀ f ∈ fetches, f = Except.error ()) →
      expandLongTails fetches (Except.ok []) = Except.ok []) ∧
    expandLongTails fetches (Except.error ()) = Except.error () := by
  refine ⟨rfl, ?_, jsDedup_nodup _, ?_, rfl⟩
  · intro k hk
    simp only [autocompleteLongTailsOf, List.mem_flatMap] at hk
    obtain ⟨r, _, hkr⟩ := hk
    cases r with
    | error e => simp at hkr
    | ok suggestions =>
      simp only [List.mem_filter, decide_eq_true_eq] at hkr
      exact hkr.2
  · intro hall
    simp only [expandLongTails, autocompleteLongTailsOf_all_error fetches hall,
      List.nil_append]
    rfl

/-- Witness for C5 at concrete provider and collaborator outcomes. -/
theorem expandLongTails_spec_witness :
    expandLongTails [Except.error ()] (Except.ok []) = Except.ok [] ∧
    (jsSplitWs ("how to fix bike".data)).length ≥ 4 :=
  ⟨(expandLongTails_spec [Except.error ()] []).2.2.2.1 (by simp),
   (expandLongTails_spec
      [Except.ok [⟨"how to fix bike".data, "autocomplete".data⟩]] []).2.1
     ("how to fix bike".data) (by decide)⟩

/-! ## Claim C3: the cannibalization 0.6 cutoff -/

/-- A concrete candidate used by the C3 theorems. -/
def c3Candidate : KeywordMetrics :=
  ⟨['k', 'w'], Volume.low, 50, SearchIntent.informational, Trend.stable, []⟩

/-- A concrete existing article (non-empty corpus) used by the C3 theorems. -/
def c3Article : ExistingArticle := ⟨['t'], ['s'], []⟩

/-- C3 counterexample: `checkCannibalization` copies the collaborator's
`isCannibalized` flag verbatim instead of recomputing it from the
similarities, so a response asserting `isCannibalized = true` with *no*
overlapping article at all yields a produced result violating the claimed
biconditional. -/
theorem checkCannibalization_trusts_flag_counterexample :
    ¬ (∀ r ∈ checkCannibalization [c3Candidate] [c3Article]
          (Except.ok [⟨['k', 'w'], [], true, []⟩]),
        (r.isCannibalized = true ↔ ∃ a ∈ r.overlappingArticles, a.similarity > 3/5)) := by
  intro h
  have hmem : (⟨['k', 'w'], [], true, []⟩ : CannibalizationResult) ∈
      checkCannibalization [c3Candidate] [c3Article]
        (Except.ok [⟨['k', 'w'], [], true, []⟩]) := by
    rw [show checkCannibalization [c3Candidate] [c3Article]
        (Except.ok [⟨['k', 'w'], [], true, []⟩]) =
        [⟨['k', 'w'], [], true, []⟩] from rfl]
    exact List.mem_singleton.mpr rfl
  obtain ⟨a, ha, _⟩ := (h _ hmem).mp rfl
  simp at ha

/-- C3 (amended): `isCannibalized` is copied verbatim from the collaborator
for the checked candidates, and every locally synthesized result (empty
corpus, collaborator failure, candidates beyond the checked top 10) is
non-cannibalized with no overlapping articles.  Therefore, *provided the
collaborator honors the `similarity > 0.6` contract on its response*,
every `CannibalizationResult` produced by `checkCannibalization` satisfies
`isCannibalized = true` iff some overlapping article has
`similarity > 0.6` — in particular a top similarity of exactly `0.6` does
not mark the keyword cannibalized, while `0.61` does. -/
theorem checkCannibalization_cutoff_under_contract
    (candidates : List KeywordMetrics) (existingArticles : List ExistingArticle)
    (response : Except Unit (List CannibalizationResult))
    (hcontract : ∀ parsed, response = Except.ok parsed →
      ∀ r ∈ parsed, (r.isCannibalized = true ↔ ∃ a ∈ r.overlappingArticles, a.similarity > 3/5)) :
    ∀ r ∈ checkCannibalization candidates existingArticles response,
      (r.isCannibalized = true ↔ ∃ a ∈ r.overlappingArticles, a.similarity > 3/5) := by
  intro r hr
  simp only [checkCannibalization] at hr
  split at hr
  · -- empty corpus: every result is the trivial all-clear.
    obtain ⟨c, _, rfl⟩ := List.mem_map.mp hr
    simp [trivialCannResult]
  · rcases List.mem_append.mp hr with hchecked | hrest
    · cases hresp : response with
      | ok parsed =>
        rw [hresp] at hchecked
        obtain ⟨r₀, hr₀, rfl⟩ := List.mem_map.mp hchecked
        have := hcontract parsed hresp r₀ hr₀
        simpa using this
      | error e =>
        rw [hresp] at hchecked
        obtain ⟨c, _, rfl⟩ := List.mem_map.mp hchecked
        simp [trivialCannResult]
    · obtain ⟨c, _, rfl⟩ := List.mem_map.mp hrest
      simp [trivialCannResult]

/-- Witness for C3 (amended) at a concrete honest collaborator response
with one article at similarity 0.61 (cannibalized) for the first keyword
and one at exactly 0.6 (not cannibalized) for the second: every produced
result's flag agrees with the `> 0.6` test over its overlapping articles. -/
theorem checkCannibalization_cutoff_under_contract_witness :
    (checkCannibalization [c3Candidate] [c3Article]
        (Except.ok
          [⟨['k', 'w'], [⟨['t'], ['s'], 61/100, []⟩], true, []⟩,
           ⟨['k', '2'], [⟨['t'], ['s'], 6/10, []⟩], false, []⟩])).all
      (fun r => r.isCannibalized ==
        r.overlappingArticles.any (fun a => decide (a.similarity > 3/5))) = true := by
  rw [List.all_eq_true]
  intro r hr
  have hiff := checkCannibalization_cutoff_under_contract [c3Candidate] [c3Article]
    (Except.ok
      [⟨['k', 'w'], [⟨['t'], ['s'], 61/100, []⟩], true, []⟩,
       ⟨['k', '2'], [⟨['t'], ['s'], 6/10, []⟩], false, []⟩])
    (by
      intro parsed hp r₀ hr₀
      cases hp
      rcases List.mem_cons.mp hr₀ with rfl | hr₂
      · simp only [List.mem_singleton]
        constructor
        · intro _
          exact ⟨_, rfl, by norm_num⟩
        · intro _
          trivial
      · rcases List.mem_singleton.mp hr₂ with rfl
        simp only [List.mem_singleton]
        constructor
        · intro h
          exact absurd h (by simp)
        · rintro ⟨a, rfl, ha⟩
          norm_num at ha)
    r hr
  cases hc : r.isCannibalized with
  | false =>
    have hnex : ¬ ∃ a ∈ r.overlappingArticles, a.similarity > 3/5 := by
      intro hex
      have := hiff.mpr hex
      rw [hc] at this
      exact Bool.false_ne_true this
    have hany : r.overlappingArticles.any (fun a => decide (a.similarity > 3/5)) = false := by
      rw [← Bool.not_eq_true, List.any_eq_true]
      intro ⟨a, ha, hd⟩
      exact hnex ⟨a, ha, of_decide_eq_true hd⟩
    rw [hany]
    rfl
  | true =>
    have hex := hiff.mp hc
    have hany : r.overlappingArticles.any (fun a => decide (a.similarity > 3/5)) = true := by
      rw [List.any_eq_true]
      obtain ⟨a, ha, hgt⟩ := hex
      exact ⟨a, ha, decide_eq_true hgt⟩
    rw [hany]
    rfl

/-! ## Claim C6: the classification threshold and tie-breaking -/

/-- Invariant of the best-match scan: after scanning `scanned`, `none`
means no scanned cluster scored strictly above 0.3; `some (j, c, s)` means
cluster `c` at position `j` of `scanned` scored `s > 0.3`, every cluster
scanned before it scored strictly less than `s` (the replacement test is
strict, so ties keep the earlier cluster) and every cluster scanned after
it scored at most `s`. -/
def BestInv (allWords : List Str) (scanned : List TopicCluster) :
    Option (Nat × TopicCluster × ℚ) → Prop
  | none => ∀ c ∈ scanned, calculateOverlap allWords c.keywords ≤ 3/10
  | some (j, c, s) =>
      s = calculateOverlap allWords c.keywords ∧ s > 3/10 ∧
      ∃ pre post, scanned = pre ++ c :: post ∧ j = pre.length ∧
        (∀ d ∈ pre, calculateOverlap allWords d.keywords < s) ∧
        (∀ d ∈ post, calculateOverlap allWords d.keywords ≤ s)

theorem findBestMatchFrom_inv (allWords : List Str) :
    ∀ (rest scanned : List TopicCluster) (best : Option (Nat × TopicCluster × ℚ)),
    BestInv allWords scanned best →
    BestInv allWords (scanned ++ rest)
      (findBestMatchFrom allWords rest scanned.length best) := by
  intro rest
  induction rest with
  | nil =>
    intro scanned best h
    simpa [findBestMatchFrom] using h
  | cons c rest ih =>
    intro scanned best h
    simp only [findBestMatchFrom]
    have hstep :
        BestInv allWords (scanned ++ [c])
          (if decide (calculateOverlap allWords c.keywords > 3/10) &&
              best.elim true (fun b => decide (calculateOverlap allWords c.keywords > b.2.2)) then
            some (scanned.length, c, calculateOverlap allWords c.keywords)
          else best) := by
      cases best with
      | none =>
        simp only [BestInv] at h
        by_cases hgt : calculateOverlap allWords c.keywords > 3/10
        · rw [if_pos (by simp [hgt])]
          refine ⟨rfl, hgt, scanned, [], rfl, rfl, ?_, by simp⟩
          intro d hd
          exact lt_of_le_of_lt (h d hd) hgt
        · rw [if_neg (by simp [hgt])]
          simp only [BestInv]
          intro d hd
          rcases List.mem_append.mp hd with hd' | hd'
          · exact h d hd'
          · rcases List.mem_singleton.mp hd' with rfl
            exact le_of_not_lt hgt
      | some b =>
        obtain ⟨j₀, c₀, s₀⟩ := b
        simp only [BestInv] at h
        obtain ⟨hs₀, hgt₀, pre₀, post₀, hdec, hj₀, hpre₀, hpost₀⟩ := h
        by_cases hok : calculateOverlap allWords c.keywords > 3/10 ∧
            calculateOverlap allWords c.keywords > s₀
        · rw [if_pos (by simp [Option.elim, hok.1, hok.2])]
          refine ⟨rfl, hok.1, scanned, [], rfl, rfl, ?_, by simp⟩
          intro d hd
          rw [hdec] at hd
          rcases List.mem_append.mp hd with hd' | hd'
          · exact lt_trans (hpre₀ d hd') hok.2
          · rcases List.mem_cons.mp hd' with rfl | hd''
            · exact hs₀ ▸ hok.2
            · exact lt_of_le_of_lt (hpost₀ d hd'') hok.2
        · have hle : calculateOverlap allWords c.keywords ≤ s₀ := by
            rcases not_and_or.mp hok with hng | hng
            · exact le_trans (le_of_not_lt hng) (le_of_lt hgt₀)
            · exact le_of_not_lt hng
          rw [if_neg (by
            simp only [Option.elim, Bool.and_eq_true, decide_eq_true_eq, not_and]
            intro h1 h2
            exact absurd ⟨h1, h2⟩ hok)]
          refine ⟨hs₀, hgt₀, pre₀, post₀ ++ [c], by rw [hdec]; simp, hj₀, hpre₀, ?_⟩
          intro d hd
          rcases List.mem_append.mp hd with hd' | hd'
          · exact hpost₀ d hd'
          · rcases List.mem_singleton.mp hd' with rfl
            exact hle
    have key := ih (scanned ++ [c]) _ hstep
    simp only [List.length_append, List.length_singleton] at key
    simpa [List.append_assoc] using key

/-- `BestInv` for the full scan of the cluster store. -/
theorem findBestMatch_inv (allWords : List Str) (clusters : List TopicCluster) :
    BestInv allWords clusters (findBestMatch allWords clusters) := by
  have h := findBestMatchFrom_inv allWords clusters [] none (by intro c hc; simp at hc)
  simpa [findBestMatch] using h

theorem set_length_append {α : Type} (pre : List α) (c x : α) (post : List α) :
    (pre ++ c :: post).set pre.length x = pre ++ x :: post := by
  induction pre with
  | nil => rfl
  | cons a pre ih => simp only [List.length_cons, List.cons_append, List.set_cons_succ, ih]

/-- Full characterization of `classifyTopic`: either no cluster scores
strictly above 0.3 and a fresh pillar cluster holding the first 30
deduplicated input tokens is appended, or the scan settles on the first
cluster attaining the maximal (strictly-above-0.3) overlap score,
which is then keyword-merged in place. -/
theorem classifyTopic_characterization (topic : Str) (queries : List Str)
    (now newId : Str) (clusters : List TopicCluster) :
    ((∀ c ∈ clusters, calculateOverlap (allWordsOf topic queries) c.keywords ≤ 3/10) ∧
      classifyTopic topic queries now newId clusters =
        (⟨newId, ContentType.pillar, true⟩,
         clusters ++
           [⟨newId, topic, (jsDedup (allWordsOf topic queries)).take 30, [], now, now⟩]))
    ∨ (∃ pre c post,
        clusters = pre ++ c :: post ∧
        calculateOverlap (allWordsOf topic queries) c.keywords > 3/10 ∧
        (∀ d ∈ pre, calculateOverlap (allWordsOf topic queries) d.keywords <
          calculateOverlap (allWordsOf topic queries) c.keywords) ∧
        (∀ d ∈ post, calculateOverlap (allWordsOf topic queries) d.keywords ≤
          calculateOverlap (allWordsOf topic queries) c.keywords) ∧
        classifyTopic topic queries now newId clusters =
          (⟨c.id,
            if c.articles.any (fun a => a.contentType = ContentType.pillar) then
              ContentType.cluster
            else ContentType.pillar,
            false⟩,
           pre ++ mergeKeywordsIntoCluster (allWordsOf topic queries) now c :: post)) := by
  have hinv := findBestMatch_inv (allWordsOf topic queries) clusters
  cases hbm : findBestMatch (allWordsOf topic queries) clusters with
  | none =>
    rw [hbm] at hinv
    simp only [BestInv] at hinv
    left
    exact ⟨hinv, by simp only [classifyTopic, hbm]⟩
  | some b =>
    obtain ⟨j, c, s⟩ := b
    rw [hbm] at hinv
    simp only [BestInv] at hinv
    obtain ⟨hs, hgt, pre, post, hdec, hj, hpre, hpost⟩ := hinv
    right
    refine ⟨pre, c, post, hdec, hs ▸ hgt, ?_, ?_, ?_⟩
    · intro d hd
      exact hs ▸ hpre d hd
    · intro d hd
      exact hs ▸ hpost d hd
    · simp only [classifyTopic, hbm]
      rw [hdec, hj, set_length_append]

/-- C6: `classifyTopic` matches an existing cluster only when its Jaccard
overlap with the input tokens strictly exceeds 0.3; among qualifying
clusters the first one in storage scan order attaining the maximal score is
chosen (every earlier cluster scores strictly less, every cluster at most
as much); and when no cluster qualifies, a new cluster is created with
`contentType = pillar`, `isNew = true`, and up to 30 deduplicated input
tokens as keywords. -/
theorem classifyTopic_threshold_and_tie (topic : Str) (queries : List Str)
    (now newId : Str) (clusters : List TopicCluster) :
    ((classifyTopic topic queries now newId clusters).1.isNew = false →
      ∃ pre c post, clusters = pre ++ c :: post ∧
        calculateOverlap (allWordsOf topic queries) c.keywords > 3/10 ∧
        (∀ d ∈ pre, calculateOverlap (allWordsOf topic queries) d.keywords <
          calculateOverlap (allWordsOf topic queries) c.keywords) ∧
        (∀ d ∈ clusters, calculateOverlap (allWordsOf topic queries) d.keywords ≤
          calculateOverlap (allWordsOf topic queries) c.keywords) ∧
        (classifyTopic topic queries now newId clusters).1.clusterId = c.id ∧
        (classifyTopic topic queries now newId clusters).2 =
          pre ++ mergeKeywordsIntoCluster (allWordsOf topic queries) now c :: post) ∧
    ((∃ c ∈ clusters, calculateOverlap (allWordsOf topic queries) c.keywords > 3/10) →
      (classifyTopic topic queries now newId clusters).1.isNew = false) ∧
    ((∀ c ∈ clusters, calculateOverlap (allWordsOf topic queries) c.keywords ≤ 3/10) →
      classifyTopic topic queries now newId clusters =
        (⟨newId, ContentType.pillar, true⟩,
         clusters ++
           [⟨newId, topic, (jsDedup (allWordsOf topic queries)).take 30, [], now, now⟩])) := by
  rcases classifyTopic_characterization topic queries now newId clusters with
    ⟨hall, heq⟩ | ⟨pre, c, post, hdec, hgt, hpre, hpost, heq⟩
  · refine ⟨?_, ?_, fun _ => heq⟩
    · intro hfalse
      rw [heq] at hfalse
      simp at hfalse
    · rintro ⟨c, hc, hgt⟩
      exact absurd (hall c hc) (not_le.mpr hgt)
  · refine ⟨?_, ?_, ?_⟩
    · intro _
      refine ⟨pre, c, post, hdec, hgt, hpre, ?_, by rw [heq], by rw [heq]⟩
      intro d hd
      rw [hdec] at hd
      rcases List.mem_append.mp hd with hd' | hd'
      · exact le_of_lt (hpre d hd')
      · rcases List.mem_cons.mp hd' with rfl | hd''
        · exact le_refl _
        · exact hpost d hd''
    · intro _
      rw [heq]
    · intro hall
      have hc : c ∈ clusters := by
        rw [hdec]
        exact List.mem_append_right pre (List.mem_cons_self c post)
      exact absurd (hall c hc) (not_le.mpr hgt)

/-- Witness for C6 on the empty cluster store: nothing qualifies, so a new
pillar cluster seeded from the input tokens is created. -/
theorem classifyTopic_threshold_and_tie_witness :
    classifyTopic "electric bikes".data ["ebike range".data] ['d'] ['x'] [] =
      (⟨['x'], ContentType.pillar, true⟩,
       [⟨['x'], "electric bikes".data,
         (jsDedup (allWordsOf "electric bikes".data ["ebike range".data])).take 30,
         [], ['d'], ['d']⟩]) :=
  (classifyTopic_threshold_and_tie "electric bikes".data ["ebike range".data]
    ['d'] ['x'] []).2.2 (by intro c hc; simp at hc)

/-! ## Claim C4: the 30-keyword cap -/

/-- 30 distinct keywords, the creation-time cap. -/
def c4Keywords : List Str :=
  (["aa", "ab", "ac", "ad", "ae", "af", "ag", "ah", "ai", "aj",
    "ak", "al", "am", "an", "ao", "ap", "aq", "ar", "as", "at",
    "au", "av", "aw", "ax", "ay", "az", "ba", "bb", "bc", "bd"]
   : List String).map String.data

/-- A stored cluster already holding exactly 30 keywords. -/
def c4Cluster : TopicCluster := ⟨['c'], ['p'], c4Keywords, [], ['d'], ['d']⟩

/-- An article bringing one keyword that the cluster does not hold yet. -/
def c4NewArticle : ClusterArticle :=
  ⟨['t'], ['s'], ['u'], ['d'], [['z', 'z']], ContentType.cluster⟩

/-- C4 counterexample: starting from a store satisfying the claimed ≤ 30
invariant (one cluster with exactly 30 keywords, as creation caps it),
`addArticleToCluster` appends the article's new keyword without
re-capping, leaving the stored cluster with 31 keywords. -/
theorem topicCluster_keyword_cap_counterexample :
    c4Cluster.keywords.length = 30 ∧
    (addArticleToCluster ['c'] c4NewArticle ['e'] [c4Cluster]).map
      (fun c => c.keywords.length) = [31] := by
  constructor
  · rfl
  · decide

/-- Per-call keyword growth of the classify-time merge: at most 10 new
entries are appended. -/
theorem mergeKeywordsIntoCluster_length (allWords : List Str) (now : Str)
    (c : TopicCluster) :
    (mergeKeywordsIntoCluster allWords now c).keywords.length ≤ c.keywords.length + 10 := by
  simp only [mergeKeywordsIntoCluster]
  split
  · simp only [List.length_append, List.length_take]
    omega
  · omega

/-- Keyword growth of `classifyTopic`: every cluster of the updated store
is an untouched stored cluster, a freshly created cluster with at most 30
keywords, or a stored cluster grown by at most 10 keywords. -/
theorem classifyTopic_keyword_growth (topic : Str) (queries : List Str)
    (now newId : Str) (clusters : List TopicCluster) :
    ∀ c ∈ (classifyTopic topic queries now newId clusters).2,
      c ∈ clusters ∨ c.keywords.length ≤ 30 ∨
        ∃ c₀ ∈ clusters, c.keywords.length ≤ c₀.keywords.length + 10 := by
  intro c hc
  rcases classifyTopic_characterization topic queries now newId clusters with
    ⟨_, heq⟩ | ⟨pre, c₀, post, hdec, _, _, _, heq⟩
  · rw [heq] at hc
    rcases List.mem_append.mp hc with hc' | hc'
    · exact Or.inl hc'
    · rcases List.mem_singleton.mp hc' with rfl
      refine Or.inr (Or.inl ?_)
      simp only [List.length_take]
      omega
  · rw [heq] at hc
    rcases List.mem_append.mp hc with hc' | hc'
    · exact Or.inl (by rw [hdec]; exact List.mem_append_left _ hc')
    · rcases List.mem_cons.mp hc' with rfl | hc''
      · refine Or.inr (Or.inr ⟨c₀, ?_, mergeKeywordsIntoCluster_length _ _ _⟩)
        rw [hdec]
        exact List.mem_append_right _ (List.mem_cons_self _ _)
      · exact Or.inl (by rw [hdec]; exact List.mem_append_right _ (List.mem_cons_of_mem _ hc''))

/-- Keyword growth of `addArticleToCluster`: every cluster of the updated
store is an untouched stored cluster or a stored cluster grown by at most
the article's keyword count. -/
theorem addArticleToCluster_keyword_growth (clusterId : Str)
    (article : ClusterArticle) (now : Str) :
    ∀ (clusters : List TopicCluster),
      ∀ c ∈ addArticleToCluster clusterId article now clusters,
        c ∈ clusters ∨
          ∃ c₀ ∈ clusters,
            c.keywords.length ≤ c₀.keywords.length + article.keywords.length := by
  intro clusters
  induction clusters with
  | nil => intro c hc; simp [addArticleToCluster] at hc
  | cons c' rest ih =>
    intro c hc
    simp only [addArticleToCluster] at hc
    by_cases hid : c'.id = clusterId
    · rw [if_pos hid] at hc
      by_cases hdup : (c'.articles.any fun x => decide (x.slug = article.slug)) = true
      · rw [if_pos hdup] at hc
        exact Or.inl hc
      · rw [if_neg hdup] at hc
        rcases List.mem_cons.mp hc with rfl | hcr
        · refine Or.inr ⟨c', List.mem_cons_self _ _, ?_⟩
          simp only [List.length_append, List.length_map]
          have hf := List.length_filter_le
            (fun k => !(c'.keywords.contains (jsLower k))) article.keywords
          omega
        · exact Or.inl (List.mem_cons_of_mem _ hcr)
    · rw [if_neg hid] at hc
      rcases List.mem_cons.mp hc with rfl | hcr
      · exact Or.inl (List.mem_cons_self _ _)
      · rcases ih c hcr with h | ⟨c₀, hc₀, hlen⟩
        · exact Or.inl (List.mem_cons_of_mem _ h)
        · exact Or.inr ⟨c₀, List.mem_cons_of_mem _ hc₀, hlen⟩

/-- A cluster selected by the embedding best-match loop comes from the
accumulator or from the scanned list. -/
theorem embeddingBestMatchFrom_mem (embed : Str → Except Unit (List ℝ))
    (topicEmbedding : List ℝ) :
    ∀ (rest : List TopicCluster) (i : Nat) (best : Option (Nat × TopicCluster × ℝ))
      (j : Nat) (c : TopicCluster) (s : ℝ),
    embeddingBestMatchFrom embed topicEmbedding rest i best = .ok (some (j, c, s)) →
    best = some (j, c, s) ∨ c ∈ rest := by
  intro rest
  induction rest with
  | nil =>
    intro i best j c s h
    simp only [embeddingBestMatchFrom, Except.ok.injEq] at h
    exact Or.inl h
  | cons c' rest ih =>
    intro i best j c s h
    simp only [embeddingBestMatchFrom] at h
    cases hemb : embed (clusterTextOf c') with
    | error e =>
      rw [hemb] at h
      exact absurd h (by simp)
    | ok v =>
      rw [hemb] at h
      rcases ih _ _ j c s h with hbest | hmem
      · split at hbest
        · rcases Option.some.injEq _ _ ▸ hbest with heq
          obtain ⟨rfl, rfl, rfl⟩ : i = j ∧ c' = c ∧ cosineSimilarity topicEmbedding v = s := by
            have := Option.some.inj hbest
            exact ⟨congrArg Prod.fst this,
              congrArg (fun p => p.2.1) this, congrArg (fun p => p.2.2) this⟩
          exact Or.inr (List.mem_cons_self _ _)
        · exact Or.inl hbest
      · exact Or.inr (List.mem_cons_of_mem _ hmem)

/-- Shape of a successful embedding-path match: the chosen cluster is a
stored cluster, keyword-merged in place. -/
theorem embeddingPath_some_shape (embed : Str → Except Unit (List ℝ)) (topic : Str)
    (queries : List Str) (now : Str) (clusters : List TopicCluster)
    (result : ClusterClassification × List TopicCluster)
    (h : embeddingPath embed topic queries now clusters = .ok (some result)) :
    ∃ i c, c ∈ clusters ∧
      result.2 = clusters.set i
        (mergeKeywordsIntoCluster (allWordsOf topic queries) now c) := by
  unfold embeddingPath at h
  cases h1 : embed (topicTextOf topic queries) with
  | error e => rw [h1] at h; exact absurd h (by simp)
  | ok temb =>
    rw [h1] at h
    dsimp only at h
    cases h2 : embeddingBestMatchFrom embed temb clusters 0 none with
    | error e => rw [h2] at h; exact absurd h (by simp)
    | ok best =>
      rw [h2] at h
      cases best with
      | none => exact absurd h (by simp)
      | some b =>
        obtain ⟨i, c, s⟩ := b
        simp only [Except.ok.injEq, Option.some.injEq] at h
        have hmem : c ∈ clusters := by
          rcases embeddingBestMatchFrom_mem embed temb clusters 0 none i c s h2 with
            hnone | hmem
          · exact absurd hnone (by simp)
          · exact hmem
        exact ⟨i, c, hmem, by rw [← h]⟩

/-- Keyword growth of `classifyTopicWithEmbeddings`: same bound as the
Jaccard path (to which it delegates on fallback); an embedding match grows
one stored cluster by at most 10 keywords. -/
theorem classifyTopicWithEmbeddings_keyword_growth (hasClient : Bool)
    (embed : Str → Except Unit (List ℝ)) (topic : Str) (queries : List Str)
    (now newId : Str) (clusters : List TopicCluster) :
    ∀ c ∈ (classifyTopicWithEmbeddings hasClient embed topic queries now newId clusters).2,
      c ∈ clusters ∨ c.keywords.length ≤ 30 ∨
        ∃ c₀ ∈ clusters, c.keywords.length ≤ c₀.keywords.length + 10 := by
  intro c hc
  unfold classifyTopicWithEmbeddings at hc
  split at hc
  · exact classifyTopic_keyword_growth topic queries now newId clusters c hc
  · cases hep : embeddingPath embed topic queries now clusters with
    | error e =>
      rw [hep] at hc
      exact classifyTopic_keyword_growth topic queries now newId clusters c hc
    | ok best =>
      rw [hep] at hc
      cases best with
      | none => exact classifyTopic_keyword_growth topic queries now newId clusters c hc
      | some result =>
        obtain ⟨i, c₀, hc₀, hres⟩ :=
          embeddingPath_some_shape embed topic queries now clusters result hep
        rw [hres] at hc
        rcases List.mem_or_eq_of_mem_set hc with hc' | rfl
        · exact Or.inl hc'
        · exact Or.inr (Or.inr ⟨c₀, hc₀, mergeKeywordsIntoCluster_length _ _ _⟩)

/-- C4 (amended): the 30-entry cap on a cluster's keyword list is enforced
only at cluster creation.  After any store operation, every stored cluster
is either untouched, a fresh cluster with at most 30 keywords, or a
previously stored cluster whose keyword list grew by at most 10 entries
(classify-time merges, Jaccard or embedding path) or by at most the added
article's keyword count (`addArticleToCluster`) — so the list can exceed
30 once merges occur. -/
theorem topicCluster_keyword_cap_amended (topic : Str) (queries : List Str)
    (now newId : Str) (clusters : List TopicCluster) :
    (∀ c ∈ (classifyTopic topic queries now newId clusters).2,
      c ∈ clusters ∨ c.keywords.length ≤ 30 ∨
        ∃ c₀ ∈ clusters, c.keywords.length ≤ c₀.keywords.length + 10) ∧
    (∀ (hasClient : Bool) (embed : Str → Except Unit (List ℝ)),
      ∀ c ∈ (classifyTopicWithEmbeddings hasClient embed topic queries now newId clusters).2,
        c ∈ clusters ∨ c.keywords.length ≤ 30 ∨
          ∃ c₀ ∈ clusters, c.keywords.length ≤ c₀.keywords.length + 10) ∧
    (∀ (clusterId : Str) (article : ClusterArticle),
      ∀ c ∈ addArticleToCluster clusterId article now clusters,
        c ∈ clusters ∨
          ∃ c₀ ∈ clusters,
            c.keywords.length ≤ c₀.keywords.length + article.keywords.length) :=
  ⟨classifyTopic_keyword_growth topic queries now newId clusters,
   fun hasClient embed =>
     classifyTopicWithEmbeddings_keyword_growth hasClient embed topic queries now newId clusters,
   fun clusterId article => addArticleToCluster_keyword_growth clusterId article now clusters⟩

/-- Witness for C4 (amended) on the empty store: the freshly created
cluster respects the creation-time cap. -/
theorem topicCluster_keyword_cap_amended_witness :
    (⟨['x'], "electric bikes".data,
      (jsDedup (allWordsOf "electric bikes".data [])).take 30, [], ['d'], ['d']⟩ :
        TopicCluster) ∈
      (classifyTopic "electric bikes".data [] ['d'] ['x'] []).2 ∧
    ((⟨['x'], "electric bikes".data,
      (jsDedup (allWordsOf "electric bikes".data [])).take 30, [], ['d'], ['d']⟩ :
        TopicCluster) ∈ ([] : List TopicCluster) ∨
      (⟨['x'], "electric bikes".data,
        (jsDedup (allWordsOf "electric bikes".data [])).take 30, [], ['d'], ['d']⟩ :
          TopicCluster).keywords.length ≤ 30 ∨
      ∃ c₀ ∈ ([] : List TopicCluster), True) := by
  have hmem : (⟨['x'], "electric bikes".data,
      (jsDedup (allWordsOf "electric bikes".data [])).take 30, [], ['d'], ['d']⟩ :
        TopicCluster) ∈ (classifyTopic "electric bikes".data [] ['d'] ['x'] []).2 := by
    decide
  refine ⟨hmem, ?_⟩
  rcases (topicCluster_keyword_cap_amended "electric bikes".data [] ['d'] ['x'] []).1 _ hmem
    with h | h | ⟨c₀, hc₀, _⟩
  · exact Or.inl h
  · exact Or.inr (Or.inl h)
  · exact Or.inr (Or.inr ⟨c₀, hc₀, trivial⟩)

/-! ## Claim C7: embedding-path fallback equivalence -/

/-- C7: with no embedding client or an empty cluster store,
`classifyTopicWithEmbeddings` returns exactly the `classifyTopic` result,
and its result does not depend on the embedding oracle at all (no embedding
call is attempted); and whenever the embedding path raises
(`embeddingPath … = .error ()` — a thrown embedding call, which in the
source always happens before any state mutation), its result equals the
full Jaccard-path result of `classifyTopic` on the same store. -/
theorem classifyTopicWithEmbeddings_fallback (hasClient : Bool)
    (embed : Str → Except Unit (List ℝ)) (topic : Str) (queries : List Str)
    (now newId : Str) (clusters : List TopicCluster) :
    ((hasClient = false ∨ clusters = []) →
      classifyTopicWithEmbeddings hasClient embed topic queries now newId clusters =
        classifyTopic topic queries now newId clusters ∧
      ∀ embed',
        classifyTopicWithEmbeddings hasClient embed' topic queries now newId clusters =
          classifyTopicWithEmbeddings hasClient embed topic queries now newId clusters) ∧
    (embeddingPath embed topic queries now clusters = Except.error () →
      classifyTopicWithEmbeddings hasClient embed topic queries now newId clusters =
        classifyTopic topic queries now newId clusters) := by
  constructor
  · intro hpre
    have hcond : (!hasClient || clusters.isEmpty) = true := by
      rcases hpre with rfl | rfl <;> simp
    constructor
    · unfold classifyTopicWithEmbeddings
      rw [if_pos hcond]
    · intro embed'
      unfold classifyTopicWithEmbeddings
      rw [if_pos hcond, if_pos hcond]
  · intro herr
    unfold classifyTopicWithEmbeddings
    by_cases hcond : (!hasClient || clusters.isEmpty) = true
    · rw [if_pos hcond]
    · rw [if_neg hcond, herr]

/-- Witness for C7: an empty store (no embedding needed) and an
always-throwing embedding oracle over a non-empty store both yield exactly
the Jaccard-path result. -/
theorem classifyTopicWithEmbeddings_fallback_witness :
    classifyTopicWithEmbeddings true (fun _ => Except.error ()) ['t'] [] ['d'] ['x'] [] =
      classifyTopic ['t'] [] ['d'] ['x'] [] ∧
    classifyTopicWithEmbeddings true (fun _ => Except.error ()) ['t'] [] ['d'] ['x']
        [⟨['c'], ['p'], [], [], ['d'], ['d']⟩] =
      classifyTopic ['t'] [] ['d'] ['x'] [⟨['c'], ['p'], [], [], ['d'], ['d']⟩] :=
  ⟨((classifyTopicWithEmbeddings_fallback true (fun _ => Except.error ())
      ['t'] [] ['d'] ['x'] []).1 (Or.inr rfl)).1,
   (classifyTopicWithEmbeddings_fallback true (fun _ => Except.error ())
      ['t'] [] ['d'] ['x'] [⟨['c'], ['p'], [], [], ['d'], ['d']⟩]).2 rfl⟩

/-! ## Claim C8: topic diversity thresholding -/

theorem jaccardSimilarity_nonneg (w1 w2 : List Str) : 0 ≤ jaccardSimilarity w1 w2 := by
  simp only [jaccardSimilarity]
  split
  · exact le_refl 0
  · exact div_nonneg (Nat.cast_nonneg _) (Nat.cast_nonneg _)

/-- The running-best fold of `checkTopicSimilarity` computes the fold of
`max` over the per-article similarity scores. -/
theorem bestStep_foldl_fst (cw : List Str) :
    ∀ (hist : List RecentArticle) (acc : ℚ × Str),
    (hist.foldl (bestStep cw) acc).1 =
      (hist.map (fun a => jaccardSimilarity cw (tokenBag a.title a.keywords))).foldl
        max acc.1 := by
  intro hist
  induction hist with
  | nil => intro acc; rfl
  | cons a hist ih =>
    intro acc
    simp only [List.foldl_cons, List.map_cons]
    rw [ih]
    congr 1
    simp only [bestStep]
    by_cases h : jaccardSimilarity cw (tokenBag a.title a.keywords) > acc.1
    · rw [if_pos h]
      exact (max_eq_right (le_of_lt h)).symm
    · rw [if_neg h]
      exact (max_eq_left (le_of_not_lt h)).symm

theorem le_foldl_max (l : List ℚ) : ∀ a : ℚ, a ≤ l.foldl max a := by
  induction l with
  | nil => intro a; exact le_refl a
  | cons x l ih =>
    intro a
    exact le_trans (le_max_left a x) (ih (max a x))

theorem mem_le_foldl_max (l : List ℚ) : ∀ (a b : ℚ), b ∈ l → b ≤ l.foldl max a := by
  induction l with
  | nil => intro a b hb; simp at hb
  | cons x l ih =>
    intro a b hb
    rcases List.mem_cons.mp hb with rfl | hb'
    · exact le_trans (le_max_right a b) (le_foldl_max l (max a b))
    · exact ih (max a x) b hb'

theorem foldl_max_mem (l : List ℚ) : ∀ a : ℚ, l.foldl max a = a ∨ l.foldl max a ∈ l := by
  induction l with
  | nil => intro a; exact Or.inl rfl
  | cons x l ih =>
    intro a
    rcases ih (max a x) with h | h
    · rcases max_choice a x with hm | hm
      · exact Or.inl (by rw [List.foldl_cons, h, hm])
      · exact Or.inr (by rw [List.foldl_cons, h, hm]; exact List.mem_cons_self x l)
    · exact Or.inr (List.mem_cons_of_mem x h)

/-- The 0-seeded max-fold over nonnegative per-element scores is an upper
bound of the scores and is attained on a non-empty list. -/
theorem foldl_max_attained {α : Type} (f : α → ℚ) (hf : ∀ x, 0 ≤ f x) :
    ∀ (l : List α), l ≠ [] →
      (∀ a ∈ l, f a ≤ (l.map f).foldl max 0) ∧
      (∃ a ∈ l, (l.map f).foldl max 0 = f a) := by
  intro l hne
  constructor
  · intro a ha
    exact mem_le_foldl_max _ 0 _ (List.mem_map_of_mem f ha)
  · rcases foldl_max_mem (l.map f) 0 with hz | hmem
    · rcases List.exists_cons_of_ne_nil hne with ⟨a, t, rfl⟩
      refine ⟨a, List.mem_cons_self a t, ?_⟩
      rw [hz]
      have hle := mem_le_foldl_max ((a :: t).map f) 0 (f a)
        (List.mem_map_of_mem f (List.mem_cons_self a t))
      rw [hz] at hle
      exact (le_antisymm hle (hf a)).symm
    · obtain ⟨a, ha, heq⟩ := List.mem_map.mp hmem
      exact ⟨a, ha, heq.symm⟩

/-- C8 counterexample: with empty `recentHistory` and `threshold = 0` the
code returns `isTooSimilar = false` while the claimed unconditional formula
`isTooSimilar = (highestScore ≥ threshold)` evaluates to `0 ≥ 0 = true`, so
the formula does not hold for every caller-supplied threshold. -/
theorem checkTopicSimilarity_empty_threshold_counterexample :
    (checkTopicSimilarity ['t'] [] [] 0).isTooSimilar = false ∧
    (checkTopicSimilarity ['t'] [] [] 0).highestScore ≥ 0 :=
  ⟨rfl, le_of_eq (show (checkTopicSimilarity ['t'] [] [] 0).highestScore = 0 from rfl).symm⟩

/-- C8 (amended): for *non-empty* `recentHistory`,
`isTooSimilar = (highestScore ≥ threshold)` for any caller-supplied
threshold, where `highestScore` is the maximal Jaccard similarity between
the candidate's token bag and each recent article's token bag (an upper
bound that is attained); empty `recentHistory` short-circuits to
`isTooSimilar = false` with `highestScore = 0` regardless of the threshold
(which agrees with the formula exactly when `threshold > 0`). -/
theorem checkTopicSimilarity_spec (title : Str) (queries : List Str)
    (history : List RecentArticle) (threshold : ℚ) :
    (history = [] →
      checkTopicSimilarity title queries history threshold = ⟨false, 0, []⟩) ∧
    (history ≠ [] →
      (checkTopicSimilarity title queries history threshold).isTooSimilar =
        decide ((checkTopicSimilarity title queries history threshold).highestScore ≥
          threshold) ∧
      (∀ a ∈ history,
        jaccardSimilarity (tokenBag title queries) (tokenBag a.title a.keywords) ≤
          (checkTopicSimilarity title queries history threshold).highestScore) ∧
      (∃ a ∈ history,
        (checkTopicSimilarity title queries history threshold).highestScore =
          jaccardSimilarity (tokenBag title queries) (tokenBag a.title a.keywords))) := by
  constructor
  · intro h
    subst h
    rfl
  · intro hne
    have hempty : history.isEmpty = false := by
      cases history with
      | nil => exact absurd rfl hne
      | cons a l => rfl
    have hcts : checkTopicSimilarity title queries history threshold =
        ⟨decide ((history.foldl (bestStep (tokenBag title queries)) (0, [])).1 ≥ threshold),
         (history.foldl (bestStep (tokenBag title queries)) (0, [])).1,
         (history.foldl (bestStep (tokenBag title queries)) (0, [])).2⟩ := by
      unfold checkTopicSimilarity
      rw [hempty]
      rfl
    have hmax := foldl_max_attained
      (fun a => jaccardSimilarity (tokenBag title queries) (tokenBag a.title a.keywords))
      (fun _ => jaccardSimilarity_nonneg _ _) history hne
    rw [hcts]
    refine ⟨rfl, ?_, ?_⟩
    · intro a ha
      dsimp only
      rw [bestStep_foldl_fst (tokenBag title queries) history (0, [])]
      exact hmax.1 a ha
    · dsimp only
      rw [bestStep_foldl_fst (tokenBag title queries) history (0, [])]
      exact hmax.2

/-- Witness for C8 at a concrete non-empty history (and the empty-history
branch). -/
theorem checkTopicSimilarity_spec_witness :
    (checkTopicSimilarity ['t'] [] [] (1/2) = ⟨false, 0, []⟩) ∧
    ((checkTopicSimilarity ['t'] [] [⟨['t'], [], ['d']⟩] (1/2)).isTooSimilar =
      decide ((checkTopicSimilarity ['t'] [] [⟨['t'], [], ['d']⟩] (1/2)).highestScore ≥
        (1/2 : ℚ))) :=
  ⟨(checkTopicSimilarity_spec ['t'] [] [] (1/2)).1 rfl,
   ((checkTopicSimilarity_spec ['t'] [] [⟨['t'], [], ['d']⟩] (1/2)).2 (by simp)).1⟩

/-! ## Claim C1: the scoring formula and descending order -/

theorem sortedScored_perm (candidates : List KeywordMetrics)
    (cannibalization : List CannibalizationResult) :
    (sortedScored candidates cannibalization).Perm (scoredList candidates cannibalization) :=
  List.mergeSort_perm _ _

theorem sortedScored_pairwise (candidates : List KeywordMetrics)
    (cannibalization : List CannibalizationResult) :
    List.Pairwise (fun a b : ScoredEntry => b.score ≤ a.score)
      (sortedScored candidates cannibalization) := by
  have h := @List.sorted_mergeSort ScoredEntry
    (fun a b : ScoredEntry => decide (b.score ≤ a.score))
    (by
      intro a b c hab hbc
      simp only [decide_eq_true_eq] at *
      exact le_trans hbc hab)
    (by
      intro a b
      simp only [Bool.or_eq_true, decide_eq_true_eq]
      exact le_total b.score a.score)
    (scoredList candidates cannibalization)
  exact h.imp (by intro a b hab; simpa using hab)

theorem scoredList_map_candidate (candidates : List KeywordMetrics)
    (cannibalization : List CannibalizationResult) :
    (scoredList candidates cannibalization).map (fun e => e.candidate) = candidates := by
  simp only [scoredList, List.map_map]
  exact List.enum_map_snd candidates

theorem scoredList_map_idx (candidates : List KeywordMetrics)
    (cannibalization : List CannibalizationResult) :
    (scoredList candidates cannibalization).map (fun e => e.idx) =
      List.range candidates.length := by
  simp only [scoredList, List.map_map]
  exact List.enum_map_fst candidates

theorem sortedScored_idx_nodup (candidates : List KeywordMetrics)
    (cannibalization : List CannibalizationResult) :
    ((sortedScored candidates cannibalization).map (fun e => e.idx)).Nodup := by
  have hperm := (sortedScored_perm candidates cannibalization).map (fun e => e.idx)
  refine hperm.symm.nodup ?_
  rw [scoredList_map_idx]
  exact List.nodup_range _

/-- C1: `scoreAndPrioritize` assigns every candidate exactly the weighted
score `volumeScore*0.30 + (100 - difficulty)*0.25 + 70*0.20 +
trendScore*0.15 + (cannibalized ? 0 : 100)*0.10` (with the stated volume
and trend tables, a candidate being cannibalized when its case-insensitive
`CannibalizationResult` lookup has `isCannibalized` true), and the scored
list is a permutation of the candidates ordered descending by this score.
(Determinism is inherent: the embedded function is pure, as is the source
path, which contains no randomness.) -/
theorem scoreAndPrioritize_scoring (candidates : List KeywordMetrics)
    (cannibalization : List CannibalizationResult) :
    ((sortedScored candidates cannibalization).map (fun e => e.candidate)).Perm candidates ∧
    (∀ e ∈ sortedScored candidates cannibalization,
      e.score =
        volumeScore e.candidate.estimatedVolume * (3/10) +
        (100 - e.candidate.estimatedDifficulty) * (25/100) +
        70 * (20/100) +
        trendBonus e.candidate.trend * (15/100) +
        (if isCannKeyword cannibalization e.candidate.keyword then 0 else 100) * (10/100) ∧
      e.isCannibalized = isCannKeyword cannibalization e.candidate.keyword) ∧
    List.Pairwise (fun a b : ScoredEntry => b.score ≤ a.score)
      (sortedScored candidates cannibalization) := by
  refine ⟨?_, ?_, sortedScored_pairwise candidates cannibalization⟩
  · have h := (sortedScored_perm candidates cannibalization).map (fun e => e.candidate)
    rw [scoredList_map_candidate] at h
    exact h
  · intro e he
    have hmem : e ∈ scoredList candidates cannibalization :=
      (sortedScored_perm candidates cannibalization).mem_iff.mp he
    obtain ⟨p, _, rfl⟩ := List.mem_map.mp hmem
    exact ⟨rfl, rfl⟩

/-- Witness for C1 on a singleton candidate list. -/
theorem scoreAndPrioritize_scoring_witness :
    (⟨0, ⟨['k'], Volume.high, 20, SearchIntent.informational, Trend.rising, []⟩,
      keywordScore [] ⟨['k'], Volume.high, 20, SearchIntent.informational, Trend.rising, []⟩,
      isCannKeyword [] ['k']⟩ : ScoredEntry) ∈
      sortedScored [⟨['k'], Volume.high, 20, SearchIntent.informational, Trend.rising, []⟩] [] ∧
    (⟨0, ⟨['k'], Volume.high, 20, SearchIntent.informational, Trend.rising, []⟩,
      keywordScore [] ⟨['k'], Volume.high, 20, SearchIntent.informational, Trend.rising, []⟩,
      isCannKeyword [] ['k']⟩ : ScoredEntry).score =
      volumeScore Volume.high * (3/10) + (100 - 20) * (25/100) + 70 * (20/100) +
        trendBonus Trend.rising * (15/100) +
        (if isCannKeyword [] ['k'] then 0 else 100) * (10/100) := by
  have hmem : (⟨0, ⟨['k'], Volume.high, 20, SearchIntent.informational, Trend.rising, []⟩,
      keywordScore [] ⟨['k'], Volume.high, 20, SearchIntent.informational, Trend.rising, []⟩,
      isCannKeyword [] ['k']⟩ : ScoredEntry) ∈
      sortedScored [⟨['k'], Volume.high, 20, SearchIntent.informational, Trend.rising, []⟩] [] := by
    unfold sortedScored
    rw [show scoredList [⟨['k'], Volume.high, 20, SearchIntent.informational, Trend.rising, []⟩] [] =
      [⟨0, ⟨['k'], Volume.high, 20, SearchIntent.informational, Trend.rising, []⟩,
        keywordScore [] ⟨['k'], Volume.high, 20, SearchIntent.informational, Trend.rising, []⟩,
        isCannKeyword [] ['k']⟩] from rfl, List.mergeSort_singleton]
    exact List.mem_singleton.mpr rfl
  exact ⟨hmem,
    ((scoreAndPrioritize_scoring
      [⟨['k'], Volume.high, 20, SearchIntent.informational, Trend.rising, []⟩] []).2.1 _ hmem).1⟩

/-! ## Claim C2: primary/secondary selection -/

theorem sortedScored_length (candidates : List KeywordMetrics)
    (cannibalization : List CannibalizationResult) :
    (sortedScored candidates cannibalization).length = candidates.length := by
  rw [(sortedScored_perm candidates cannibalization).length_eq]
  simp [scoredList]

/-- C2: for non-empty candidates, `scoreAndPrioritize` returns a plan whose
`primary` is the head of the descending-sorted non-cannibalized entries — a
top-scoring non-cannibalized candidate — with `secondary` the next (at
most) five non-cannibalized entries after it; when every candidate is
cannibalized, `primary` is the globally top-scoring candidate and
`secondary` is empty; in both cases the plan's `score` equals the primary
entry's score. -/
theorem scoreAndPrioritize_plan (candidates : List KeywordMetrics)
    (cannibalization : List CannibalizationResult) (hne : candidates ≠ []) :
    ∃ plan, scoreAndPrioritize candidates cannibalization = some plan ∧
      ((sortedScored candidates cannibalization).filter (fun s => !s.isCannibalized) ≠ [] →
        ∃ e t,
          (sortedScored candidates cannibalization).filter (fun s => !s.isCannibalized) =
            e :: t ∧
          e.isCannibalized = false ∧
          plan.primary = e.candidate ∧
          plan.score = e.score ∧
          (∀ d ∈ (sortedScored candidates cannibalization).filter
              (fun s => !s.isCannibalized), d.score ≤ e.score) ∧
          plan.secondary = (t.take 5).map (fun s => s.candidate)) ∧
      ((sortedScored candidates cannibalization).filter (fun s => !s.isCannibalized) = [] →
        ∃ e t, sortedScored candidates cannibalization = e :: t ∧
          plan.primary = e.candidate ∧
          plan.score = e.score ∧
          (∀ d ∈ sortedScored candidates cannibalization, d.score ≤ e.score) ∧
          plan.secondary = []) := by
  obtain ⟨e₀, t₀, hsc⟩ : ∃ e t, sortedScored candidates cannibalization = e :: t := by
    cases h : sortedScored candidates cannibalization with
    | nil =>
      exfalso
      have hl := sortedScored_length candidates cannibalization
      rw [h] at hl
      exact hne (List.eq_nil_of_length_eq_zero hl.symm)
    | cons e t => exact ⟨e, t, rfl⟩
  have hpair := sortedScored_pairwise candidates cannibalization
  cases hnc : (sortedScored candidates cannibalization).filter (fun s => !s.isCannibalized) with
  | cons e t =>
    have hnodup : ((sortedScored candidates cannibalization).map
        (fun s => s.idx)).Nodup := sortedScored_idx_nodup candidates cannibalization
    have hsubnodup : (((sortedScored candidates cannibalization).filter
        (fun s => !s.isCannibalized)).map (fun s => s.idx)).Nodup :=
      ((List.filter_sublist _).map _).nodup hnodup
    rw [hnc, List.map_cons, List.nodup_cons] at hsubnodup
    have hfilter : t.filter (fun s => decide (s.idx ≠ e.idx)) = t := by
      refine List.filter_eq_self.mpr ?_
      intro d hd
      simp only [decide_eq_true_eq]
      intro hidx
      exact hsubnodup.1 (hidx ▸ List.mem_map_of_mem (fun s => s.idx) hd)
    have heq : scoreAndPrioritize candidates cannibalization =
        some { primary := e.candidate
               secondary := (t.take 5).map (fun s => s.candidate)
               longTails := []
               intentProfile :=
                 dominantIntent (e.candidate :: (t.take 5).map (fun s => s.candidate))
               cannibalizationReport := cannibalization
               score := e.score } := by
      simp only [scoreAndPrioritize]
      rw [hnc]
      rw [if_pos (by simp : (e :: t).length > 0)]
      simp only [List.head?_cons]
      rw [List.filter_cons_of_neg (by simp), hfilter]
    refine ⟨_, heq, ?_, ?_⟩
    · intro _
      refine ⟨e, t, rfl, ?_, rfl, rfl, ?_, rfl⟩
      · have hmem : e ∈ (sortedScored candidates cannibalization).filter
            (fun s => !s.isCannibalized) := by
          rw [hnc]
          exact List.mem_cons_self e t
        have hb := (List.mem_filter.mp hmem).2
        simpa using hb
      · intro d hd
        have hpairf : List.Pairwise (fun a b : ScoredEntry => b.score ≤ a.score) (e :: t) := by
          rw [← hnc]
          exact hpair.filter _
        rcases List.mem_cons.mp hd with rfl | hd'
        · exact le_refl _
        · exact List.rel_of_pairwise_cons hpairf hd'
    · intro h
      exact absurd h (List.cons_ne_nil e t)
  | nil =>
    have heq : scoreAndPrioritize candidates cannibalization =
        some { primary := e₀.candidate
               secondary := []
               longTails := []
               intentProfile := dominantIntent (e₀.candidate :: [])
               cannibalizationReport := cannibalization
               score := e₀.score } := by
      simp only [scoreAndPrioritize]
      rw [hnc, hsc]
      rw [if_neg (by simp : ¬ (List.length ([] : List ScoredEntry) > 0))]
      simp only [List.head?_cons]
      rfl
    refine ⟨_, heq, ?_, ?_⟩
    · intro h
      exact absurd rfl h
    · intro _
      refine ⟨e₀, t₀, hsc, rfl, rfl, ?_, rfl⟩
      intro d hd
      rw [hsc] at hd
      have hpairc : List.Pairwise (fun a b : ScoredEntry => b.score ≤ a.score) (e₀ :: t₀) :=
        hsc ▸ hpair
      rcases List.mem_cons.mp hd with rfl | hd'
      · exact le_refl _
      · exact List.rel_of_pairwise_cons hpairc hd'

/-- Witness for C2 on a singleton candidate list. -/
theorem scoreAndPrioritize_plan_witness :
    (scoreAndPrioritize
      [⟨['k'], Volume.high, 20, SearchIntent.informational, Trend.rising, []⟩] []).isSome =
      true := by
  obtain ⟨plan, hp, _, _⟩ := scoreAndPrioritize_plan
    [⟨['k'], Volume.high, 20, SearchIntent.informational, Trend.rising, []⟩] [] (by simp)
  rw [hp]
  rfl
